import Mathlib

/-!
Shallow embedding of the secrets/credentials scanner (`src/main.py`) and
verification of the specification's claims against it.

The embedding mirrors the Python source function by function:
* `parse_gitignore`      ← `parse_gitignore` (main.py:13-22)
* `should_ignore`        ← `should_ignore` (main.py:25-35)
* `get_files_to_scan`    ← `get_files_to_scan` (main.py:38-43)
* `find_secrets_in_file` ← `find_secrets_in_file` (main.py:46-76)
* `scan_batches` / `scan_tree` ← the batching loop of `main` (main.py:122-133)

Python paths (`pathlib`) are modelled by `PyPath` (an absolute flag plus the
list of components); `PurePath.match`, `PurePath.is_relative_to` and
`fnmatch.fnmatch` are embedded directly.  File I/O is modelled by a list of
read events (each a successfully decoded line, or a raised error), which is
exactly the interface the Python code consumes (`async for line in file`).
-/

namespace SecretScanner

/-- Python whitespace for `str.strip` / the `\s` regex class (ASCII range). -/
def isPySpace (c : Char) : Bool :=
  c = ' ' || c = '\t' || c = '\n' || c = '\r' || c = '\x0b' || c = '\x0c'

/-- `str.strip()`: remove leading and trailing whitespace. -/
def pyStrip (s : String) : String :=
  String.mk (((s.data.dropWhile isPySpace).reverse.dropWhile isPySpace).reverse)

/-- `str.startswith("#")`. -/
def startsHash (s : String) : Bool :=
  match s.data with
  | '#' :: _ => true
  | _ => false

/-- `"/" in pattern` (substring containment of the single character `/`). -/
def containsSlash (s : String) : Bool := s.data.contains '/'

/-- `a` is a prefix of `b` (character lists). -/
def charsPrefix (a b : List Char) : Bool := b.take a.length == a

/-- Python's `sub in s` for strings: `sub` occurs contiguously in `s`. -/
def charsSubstr (a : List Char) : List Char → Bool
  | [] => charsPrefix a []
  | c :: rest => charsPrefix a (c :: rest) || charsSubstr a rest

/-- Membership of a character in an `fnmatch` bracket class body
(literal characters and `a-z` ranges; a trailing `-` is literal). -/
def classMember (c : Char) : List Char → Bool
  | a :: hy :: b :: rest =>
    if hy = '-' then (a ≤ c && c ≤ b) || classMember c rest
    else c = a || classMember c (hy :: b :: rest)
  | a :: rest => c = a || classMember c rest
  | [] => false

/-- Scan forward to the closing `]` of a bracket class, returning the body
and the remainder of the pattern. -/
def findClose : List Char → Option (List Char × List Char)
  | [] => none
  | c :: rest =>
    if c = ']' then some ([], rest)
    else match findClose rest with
      | some pr => some (c :: pr.1, pr.2)
      | none => none

/-- Parse the pattern text following `[`: an optional `!` negation, then a
body in which a leading `]` is literal, up to the closing `]`.  `none` means
the class is unclosed (then `[` is matched literally, as in Python). -/
def classParse (ps : List Char) : Option (Bool × List Char × List Char) :=
  match ps with
  | '!' :: rest =>
    (match rest with
     | ']' :: rest2 => (findClose rest2).map (fun pr => (true, ']' :: pr.1, pr.2))
     | _ => (findClose rest).map (fun pr => (true, pr.1, pr.2)))
  | ']' :: rest => (findClose rest).map (fun pr => (false, ']' :: pr.1, pr.2))
  | _ => (findClose ps).map (fun pr => (false, pr.1, pr.2))

/-- `fnmatch.fnmatchcase` on character lists, with explicit fuel.  Every
recursive call strictly decreases `pattern.length + text.length`, so fuel
`pattern.length + text.length + 1` (used by `fnmatch` below) always
suffices and the `0` branch is never reached from `fnmatch`. -/
def fnmatchFuel : Nat → List Char → List Char → Bool
  | 0, _, _ => false
  | _ + 1, [], [] => true
  | _ + 1, [], _ :: _ => false
  | fuel + 1, p :: ps, s =>
    if p = '*' then
      fnmatchFuel fuel ps s ||
        (match s with
         | [] => false
         | _ :: rest => fnmatchFuel fuel (p :: ps) rest)
    else if p = '?' then
      match s with
      | [] => false
      | _ :: rest => fnmatchFuel fuel ps rest
    else if p = '[' then
      match classParse ps with
      | none =>
        (match s with
         | [] => false
         | c :: rest => c = '[' && fnmatchFuel fuel ps rest)
      | some (neg, body, after) =>
        (match s with
         | [] => false
         | c :: rest => (classMember c body != neg) && fnmatchFuel fuel after rest)
    else
      match s with
      | [] => false
      | c :: rest => p = c && fnmatchFuel fuel ps rest

/-- `fnmatch.fnmatch(name, pat)` (POSIX: `normcase` is the identity). -/
def fnmatch (name pat : String) : Bool :=
  fnmatchFuel (pat.data.length + name.data.length + 1) pat.data name.data

/-- A `pathlib` path: whether it is absolute, plus its components (the
components exclude the root marker; `PurePath.parts` prepends `"/"` for an
absolute path, which `allParts` below reproduces). -/
structure PyPath where
  absolute : Bool
  parts : List String
deriving DecidableEq

/-- Split a character list on `/`. -/
def splitSlash : List Char → List (List Char)
  | [] => [[]]
  | c :: rest =>
    if c = '/' then [] :: splitSlash rest
    else
      match splitSlash rest with
      | g :: gs => (c :: g) :: gs
      | [] => [[c]]

/-- `PurePath(s)` normalisation: absolute flag plus components (empty and
`.` components are dropped, as pathlib does). -/
def parsePath (s : String) : Bool × List String :=
  (match s.data with | '/' :: _ => true | _ => false,
   ((splitSlash s.data).map String.mk).filter (fun c => c != "" && c != "."))

/-- `PurePath.parts`: the components, preceded by `"/"` when absolute. -/
def PyPath.allParts (p : PyPath) : List String :=
  if p.absolute then "/" :: p.parts else p.parts

/-- `path.name`: the final component (empty for a root / empty path). -/
def PyPath.name (p : PyPath) : String := p.parts.getLast?.getD ""

/-- Componentwise `fnmatch` of path parts against pattern parts. -/
def fnmatchParts : List String → List String → Bool
  | [], [] => true
  | a :: as, b :: bs => fnmatch a b && fnmatchParts as bs
  | _, _ => false

/-- `PurePath.match(pattern)`: a relative pattern is matched, componentwise
by `fnmatch`, against the final components of the path from the right; an
absolute pattern must match the whole path.  (Python raises on an empty
pattern; modelled as no match.) -/
def PyPath.pathMatch (p : PyPath) (pattern : String) : Bool :=
  let pr := parsePath pattern
  if pr.2.isEmpty then false
  else if pr.1 then
    p.absolute && pr.2.length == p.parts.length && fnmatchParts p.parts pr.2
  else
    let ap := p.allParts
    let k := pr.2.length
    if k ≤ ap.length then fnmatchParts (ap.drop (ap.length - k)) pr.2 else false

/-- Prefix test on component lists. -/
def isPrefixList (a b : List String) : Bool := b.take a.length == a

/-- `PurePath.is_relative_to(other)`: `other`'s parts (root marker included)
are a literal prefix of the path's parts. -/
def PyPath.is_relative_to (p : PyPath) (other : String) : Bool :=
  let pr := parsePath other
  isPrefixList (if pr.1 then "/" :: pr.2 else pr.2) p.allParts

/-- The source's spurious inner generator (main.py:33): the loop variable is
shadowed, so it asks whether ANY rule of the whole list is a (truthy, hence
non-empty) substring of the path's final component. -/
def subAny (name : String) (allRules : List String) : Bool :=
  allRules.any (fun q => q != "" && charsSubstr q.data name.data)

/-- The `for pattern in ignored_patterns` loop of `should_ignore`
(main.py:27-35).  `allRules` is the full list captured by the inner
generator; the last argument is the remaining iteration suffix. -/
def ignoreLoop (p : PyPath) (allRules : List String) : List String → Bool
  | [] => false
  | pat :: rest =>
    if containsSlash pat then
      if p.pathMatch pat || p.is_relative_to pat then true
      else ignoreLoop p allRules rest
    else if fnmatch p.name pat then true
    else if subAny p.name allRules then true
    else ignoreLoop p allRules rest

/-- `should_ignore(path, ignored_patterns)` (main.py:25-35). -/
def should_ignore (p : PyPath) (rules : List String) : Bool :=
  ignoreLoop p rules rules

/-- One entry produced by `root_dir.rglob("*")`: a path plus the result of
`path.is_file()`. -/
structure FsEntry where
  path : PyPath
  isFile : Bool
deriving DecidableEq

/-- `get_files_to_scan` (main.py:38-43).  The `rglob` walk itself is the
environment; it is modelled by the input list of visited entries (every
entry of the subtree, directories included, in walk order). -/
def get_files_to_scan (entries : List FsEntry) (rules : List String) : List PyPath :=
  (entries.filter (fun e => e.isFile && !should_ignore e.path rules)).map (fun e => e.path)

/-- The accumulation loop of `parse_gitignore` (main.py:18-21): strip each
raw line and append it when non-empty and not a `#` comment. -/
def gitignoreLoop : List String → List String
  | [] => []
  | l :: ls =>
    let t := pyStrip l
    if t != "" && !startsHash t then t :: gitignoreLoop ls
    else gitignoreLoop ls

/-- `parse_gitignore` (main.py:13-22): `fileLines` are the raw lines of the
ignore file, `fileExists` is `gitignore_path.exists()`. -/
def parse_gitignore (fileExists : Bool) (fileLines : List String) : List String :=
  if fileExists then gitignoreLoop fileLines else []

/-- One found secret (the dict appended at main.py:59-64). -/
structure MatchRecord where
  secret : String
  file : String
  line : Nat
  line_content : String
deriving DecidableEq

/-- A scan rule, as the spec's ScanRule and as the code uses a compiled
pattern: `pattern.search(line)` yields at most one match, whose
`match.group()` is the matched substring. -/
abbrev ScanRule := String → Option String

/-- The exception classes distinguished by `find_secrets_in_file`
(main.py:69,72): `UnicodeDecodeError`, `PermissionError`, other `OSError`. -/
inductive ErrKind
  | unicode
  | perm
  | os
deriving DecidableEq

/-- One step of the file as the scanner observes it: either the next
successfully decoded line (with its trailing newline, as `async for line in
file` yields it), or an exception raised while opening/reading/decoding. -/
inductive FileEvent
  | line (s : String)
  | err (e : ErrKind)
deriving DecidableEq

/-- `line if len(line) < 50 else line[:50]` (main.py:63). -/
def linePreview (line : String) : String :=
  if line.data.length < 50 then line else String.mk (line.data.take 50)

/-- The inner `for pattern in patterns` loop on one line (main.py:56-64):
one record per rule whose search matches, in rule order. -/
def lineRecords (file : String) (lineNum : Nat) (line : String)
    (pats : List ScanRule) : List MatchRecord :=
  pats.filterMap (fun p => (p line).map (fun m => ⟨m, file, lineNum, linePreview line⟩))

/-- One execution of the inner closure `scan_file` (main.py:50-66): consume
read events in order, appending each line's records to the mutable
`results` accumulator, until the file ends (no exception) or an exception
is raised.  Returns the accumulator as left by the attempt, plus the raised
exception if any. -/
def scan_attempt (file : String) (pats : List ScanRule) :
    List FileEvent → List MatchRecord → Nat → List MatchRecord × Option ErrKind
  | [], acc, _ => (acc, none)
  | .line s :: evs, acc, n => scan_attempt file pats evs (acc ++ lineRecords file (n + 1) s pats) (n + 1)
  | .err e :: _, acc, _ => (acc, some e)

/-- `time.sleep(5)` before the retry (main.py:74). -/
def retryDelaySeconds : Nat := 5

/-- `find_secrets_in_file` (main.py:46-76).  `ev1` is the file's behaviour
on the first attempt, `ev2` on the retry (a transient condition may behave
differently the second time).  The Python `results` list is created once
(main.py:48) and NOT cleared before the retry, so the retry keeps
appending to the first attempt's accumulator.  A `UnicodeDecodeError` or
`PermissionError` on the first attempt is swallowed and whatever is in
`results` is returned; an `OSError` triggers one retry after the fixed
delay; any exception inside the retry propagates (`Except.error`). -/
def find_secrets_in_file (file : String) (pats : List ScanRule)
    (ev1 ev2 : List FileEvent) : Except ErrKind (List MatchRecord) :=
  match scan_attempt file pats ev1 [] 0 with
  | (res1, none) => .ok res1
  | (res1, some .unicode) => .ok res1
  | (res1, some .perm) => .ok res1
  | (res1, some .os) =>
    match scan_attempt file pats ev2 res1 0 with
    | (res2, none) => .ok res2
    | (_, some e) => .error e

/-- The separator class `[\s=:"]` of the rule
`(API_KEY|password)[\s=:"]+([A-Za-z0-9-_]+)` (whitespace as in `\s`,
ASCII range). -/
def isSepChar (c : Char) : Bool :=
  isPySpace c || c = '=' || c = ':' || c = '"'

/-- The word class `[A-Za-z0-9-_]` of the same rule (ranges `A-Z`, `a-z`,
`0-9` plus literal `-` and `_`). -/
def isWordChar (c : Char) : Bool :=
  ('A' ≤ c && c ≤ 'Z') || ('a' ≤ c && c ≤ 'z') || ('0' ≤ c && c ≤ '9') ||
    c = '-' || c = '_'

/-- Attempt of `(API_KEY|password)[\s=:"]+([A-Za-z0-9-_]+)` anchored at the
start of `cs`, with Python `re` semantics: alternatives tried in order and
`+` greedy with backtracking.  Because the separator and word classes are
disjoint, greedy matching is exact here: the maximal separator run is the
first length backtracking tries, and if the character after it is not a
word character then every shorter separator run is also followed by a
separator character, so no backtracked length can succeed either. -/
def credMatchAt (cs : List Char) : Option (List Char) :=
  let tryAfter : List Char → Option (List Char) := fun pref =>
    if charsPrefix pref cs then
      let rest := cs.drop pref.length
      let seps := rest.takeWhile isSepChar
      if seps.isEmpty then none
      else
        let word := (rest.drop seps.length).takeWhile isWordChar
        if word.isEmpty then none else some (pref ++ seps ++ word)
    else none
  match tryAfter "API_KEY".data with
  | some m => some m
  | none => tryAfter "password".data

/-- `pattern.search` for the same rule: the leftmost start position at
which the anchored attempt succeeds, as Python `re.search` scans. -/
def credSearchAux : List Char → Option (List Char)
  | [] => none
  | c :: rest =>
    match credMatchAt (c :: rest) with
    | some m => some m
    | none => credSearchAux rest

/-- The C7 scan rule `(API_KEY|password)[\s=:"]+([A-Za-z0-9-_]+)` as a
`ScanRule`: `match.group()` of the leftmost match, if any. -/
def credSearch (line : String) : Option String :=
  (credSearchAux line.data).map String.mk

/-- The records produced by one error-free pass over the given lines. -/
def scanLines (file : String) (pats : List ScanRule) (lines : List String) : List MatchRecord :=
  (scan_attempt file pats (lines.map FileEvent.line) [] 0).1

/-- The batching loop of `main` (main.py:125-130): `chunks = int(len/100)`;
batch `i` is `tasks[i*100:(i+1)*100]`, except the last (`i == chunks-1`),
which is `tasks[i*100:]`. -/
def scan_batches {α : Type} (tasks : List α) : List (List α) :=
  let chunks := tasks.length / 100
  (List.range chunks).map (fun i =>
    if i = chunks - 1 then tasks.drop (i * 100)
    else (tasks.drop (i * 100)).take 100)

/-- The Scan Coordinator's aggregation (main.py:122-133): each candidate
file's task yields its per-file `MatchRecord` list (`taskResults`, in file
order); `asyncio.gather` of each batch appends those lists to
`all_results`, and the final comprehension flattens once. -/
def scan_tree (taskResults : List (List MatchRecord)) : List MatchRecord :=
  ((scan_batches taskResults).flatten).flatten

/-! Characterisation of `should_ignore`: the loop fires on a rule exactly
when that rule's branch condition holds, and the branch conditions only
read the full rule list through `subAny`. -/

/-- The condition under which the loop body returns `true` for one rule. -/
def hitRule (p : PyPath) (allRules : List String) (pat : String) : Bool :=
  if containsSlash pat then p.pathMatch pat || p.is_relative_to pat
  else fnmatch p.name pat || subAny p.name allRules

theorem ignoreLoop_eq_any (p : PyPath) (A : List String) :
    ∀ L : List String, ignoreLoop p A L = L.any (hitRule p A) := by
  intro L
  induction L with
  | nil => rfl
  | cons pat rest ih =>
    simp only [List.any_cons, ← ih]
    cases hcs : containsSlash pat with
    | true =>
      cases hm : (p.pathMatch pat || p.is_relative_to pat) with
      | true => simp [ignoreLoop, hitRule, hcs, hm]
      | false => simp [ignoreLoop, hitRule, hcs, hm]
    | false =>
      cases hf : fnmatch p.name pat with
      | true => simp [ignoreLoop, hitRule, hcs, hf]
      | false =>
        cases hs : subAny p.name A with
        | true => simp [ignoreLoop, hitRule, hcs, hf, hs]
        | false => simp [ignoreLoop, hitRule, hcs, hf, hs]

theorem should_ignore_eq_any (p : PyPath) (R : List String) :
    should_ignore p R = R.any (hitRule p R) :=
  ignoreLoop_eq_any p R R

theorem subAny_mono {name : String} {A B : List String}
    (h : ∀ r ∈ A, r ∈ B) (ha : subAny name A = true) : subAny name B = true := by
  simp only [subAny, List.any_eq_true] at ha ⊢
  obtain ⟨q, hq, hqq⟩ := ha
  exact ⟨q, h q hq, hqq⟩

theorem hitRule_mono {p : PyPath} {A B : List String}
    (h : ∀ r ∈ A, r ∈ B) {pat : String}
    (hp : hitRule p A pat = true) : hitRule p B pat = true := by
  unfold hitRule at hp ⊢
  cases hcs : containsSlash pat with
  | true => rw [hcs] at hp; simpa using hp
  | false =>
    simp only [hcs, Bool.false_eq_true, if_false, Bool.or_eq_true] at hp ⊢
    rcases hp with h1 | h2
    · exact Or.inl h1
    · exact Or.inr (subAny_mono h h2)

/-- C10: `should_ignore` is monotone in its rule set — adding ignore rules
never un-excludes a path. -/
theorem C10_monotone (p : PyPath) (R S : List String)
    (hsub : ∀ r ∈ R, r ∈ S) (h : should_ignore p R = true) :
    should_ignore p S = true := by
  rw [should_ignore_eq_any] at h ⊢
  simp only [List.any_eq_true] at h ⊢
  obtain ⟨pat, hmem, hhit⟩ := h
  exact ⟨pat, hsub pat hmem, hitRule_mono hsub hhit⟩

/-- Witness for C10: the path `login.py` is excluded by the rule set
`["log"]` and stays excluded by the superset `["log", "zzz"]`. -/
theorem C10_monotone_witness :
    (∀ r ∈ ["log"], r ∈ ["log", "zzz"]) ∧
      should_ignore ⟨false, ["login.py"]⟩ ["log"] = true ∧
      should_ignore ⟨false, ["login.py"]⟩ ["log", "zzz"] = true :=
  ⟨by decide, by decide,
    C10_monotone ⟨false, ["login.py"]⟩ ["log"] ["log", "zzz"] (by decide) (by decide)⟩

/-- C6 counterexample: the empty string is a rule with no separator whose
text occurs (vacuously) as a substring of the final component `x`, yet
`should_ignore` returns `false` — the inner generator discards it because
the empty string is falsy in Python. -/
theorem C6_empty_rule_cex :
    ("" : String) ∈ [""] ∧ containsSlash "" = false ∧
      charsSubstr "".data (PyPath.name ⟨false, ["x"]⟩).data = true ∧
      should_ignore ⟨false, ["x"]⟩ [""] = false := by
  refine ⟨by decide, by decide, by decide, by decide⟩

/-- C6 amended: if some NON-EMPTY rule of `R` contains no path separator
and its exact text occurs as a substring of the path's final component,
then `should_ignore` returns `true`. -/
theorem C6_substring_excludes (p : PyPath) (R : List String) (r : String)
    (hmem : r ∈ R) (hne : r ≠ "") (hslash : containsSlash r = false)
    (hsub : charsSubstr r.data p.name.data = true) :
    should_ignore p R = true := by
  rw [should_ignore_eq_any]
  simp only [List.any_eq_true]
  refine ⟨r, hmem, ?_⟩
  unfold hitRule
  simp only [hslash, Bool.false_eq_true, if_false, Bool.or_eq_true]
  refine Or.inr ?_
  simp only [subAny, List.any_eq_true]
  exact ⟨r, hmem, by simp [hne, hsub]⟩

/-- Witness for C6 amended: the non-empty rule `log` excludes `login.py`
through the substring fallback. -/
theorem C6_substring_excludes_witness :
    ("log" ∈ ["log"] ∧ ("log" : String) ≠ "" ∧ containsSlash "log" = false ∧
      charsSubstr "log".data (PyPath.name ⟨false, ["login.py"]⟩).data = true) ∧
      should_ignore ⟨false, ["login.py"]⟩ ["log"] = true :=
  ⟨⟨by decide, by decide, by decide, by decide⟩,
    C6_substring_excludes ⟨false, ["login.py"]⟩ ["log"] "log"
      (by decide) (by decide) (by decide) (by decide)⟩

theorem gitignoreLoop_eq (ls : List String) :
    gitignoreLoop ls = (ls.map pyStrip).filter (fun t => t != "" && !startsHash t) := by
  induction ls with
  | nil => rfl
  | cons l ls ih =>
    by_cases h : (pyStrip l != "" && !startsHash (pyStrip l)) = true
    · simp [gitignoreLoop, List.filter_cons, h, ih]
    · simp [gitignoreLoop, List.filter_cons, h, ih]

/-- C9: `parse_gitignore` returns exactly the stripped, non-empty,
non-comment lines of the ignore source in source order, and the empty list
when the source file does not exist. -/
theorem C9_parse_gitignore_spec (fileExists : Bool) (fileLines : List String) :
    parse_gitignore fileExists fileLines =
      if fileExists then
        (fileLines.map pyStrip).filter (fun t => t != "" && !startsHash t)
      else [] := by
  unfold parse_gitignore
  cases fileExists
  · rfl
  · simpa using gitignoreLoop_eq fileLines

/-- A sample per-file result used as concrete input. -/
def sampleRecord : MatchRecord := ⟨"API_KEY = 1", "f.py", 1, "API_KEY = 1"⟩

/-- C1: with fewer than 100 candidate files the coordinator's loop runs
zero batches (`chunks = int(1/100) = 0`), so the single file's records are
dropped entirely — the aggregate is empty instead of the union of the
per-file lists. -/
theorem C1_small_input_dropped :
    scan_tree [[sampleRecord]] = [] ∧
      List.flatten [[sampleRecord]] = [sampleRecord] := by
  exact ⟨rfl, rfl⟩

/-- A rule matching exactly the line `A` (as a compiled pattern would). -/
def ruleA : ScanRule := fun l => if l == "A" then some "A" else none

/-- C2: a transient `OSError` raised after line 1 was already scanned,
followed by a successful retry, duplicates the line-1 record: the
`results` accumulator is not cleared before the retry, so the output is
`[r, r]` where an immediately-successful scan returns `[r]`. -/
theorem C2_retry_duplicates :
    find_secrets_in_file "f" [ruleA] [.line "A", .err .os] [.line "A"]
        = .ok [⟨"A", "f", 1, "A"⟩, ⟨"A", "f", 1, "A"⟩] ∧
      find_secrets_in_file "f" [ruleA] [.line "A"] [] = .ok [⟨"A", "f", 1, "A"⟩] :=
  ⟨rfl, rfl⟩

/-- C3: a `UnicodeDecodeError` or `PermissionError` raised after line 1
was already scanned does NOT make the file contribute zero matches: the
records accumulated before the failure are returned silently. -/
theorem C3_decode_error_keeps_records :
    find_secrets_in_file "f" [ruleA] [.line "A", .err .unicode] []
        = .ok [⟨"A", "f", 1, "A"⟩] ∧
      find_secrets_in_file "f" [ruleA] [.line "A", .err .perm] []
        = .ok [⟨"A", "f", 1, "A"⟩] :=
  ⟨rfl, rfl⟩

/-- C5: with the absolute paths the program actually scans (`Path.cwd()`
is absolute), the trailing-slash rule `secret_folder/` matches the
directory itself but NOT the file beneath it (`PurePath.match` compares
only the final component against the one-component pattern, and
`is_relative_to` fails for a relative prefix of an absolute path), so
`hidden.py` survives ignore-filtering and is enumerated for scanning. -/
theorem C5_trailing_slash_not_excluded :
    should_ignore ⟨true, ["tmp", "proj", "secret_folder"]⟩ ["secret_folder/"] = true ∧
      should_ignore ⟨true, ["tmp", "proj", "secret_folder", "hidden.py"]⟩
          ["secret_folder/"] = false ∧
      get_files_to_scan
          [⟨⟨true, ["tmp", "proj", "secret_folder"]⟩, false⟩,
            ⟨⟨true, ["tmp", "proj", "secret_folder", "hidden.py"]⟩, true⟩]
          ["secret_folder/"]
        = [⟨true, ["tmp", "proj", "secret_folder", "hidden.py"]⟩] := by
  refine ⟨by decide, by decide, by decide⟩

/-- C7: neither separator class of the rule
`(API_KEY|password)[\s=:"]+([A-Za-z0-9-_]+)` contains an apostrophe, so on
the quoted file content the rule matches nothing and the scanner returns
zero records, not the two records the claim (and the repository's own
test) expects. -/
theorem C7_regex_matches_nothing :
    find_secrets_in_file "test.py" [credSearch]
        [.line "API_KEY = \x27123\x27\n", .line "password = \x27x\x27\n"] []
        = .ok [] ∧
      credSearch "API_KEY = \x27123\x27\n" = none ∧
      credSearch "password = \x27x\x27\n" = none :=
  ⟨rfl, rfl, rfl⟩

set_option maxRecDepth 40000 in
/-- C4 counterexample: with 150 tasks, `chunks = int(150/100) = 1` and the
single batch — which is also the last — is `tasks[0:]`, i.e. all 150
tasks, exceeding the claimed bound of 100. -/
theorem C4_batch_over_100 :
    ∃ b ∈ scan_batches (List.range 150), 100 < b.length := by
  refine ⟨List.range 150, by decide, by decide⟩

/-- C4 amended: every dispatched batch holds at most 199 tasks — batches
other than the last hold exactly 100, the last holds `100 + N % 100`, and
when `N < 100` no batch is dispatched at all. -/
theorem C4_batch_le_199 {α : Type} (tasks : List α) (b : List α)
    (hb : b ∈ scan_batches tasks) : b.length ≤ 199 := by
  unfold scan_batches at hb
  simp only [List.mem_map, List.mem_range] at hb
  obtain ⟨i, hi, hbeq⟩ := hb
  subst hbeq
  split
  · rw [List.length_drop]
    omega
  · rw [List.length_take, List.length_drop]
    omega

set_option maxRecDepth 40000 in
/-- Witness for C4 amended: the oversized 150-task batch still satisfies
the corrected bound of 199. -/
theorem C4_batch_le_199_witness :
    List.range 150 ∈ scan_batches (List.range 150) ∧ (List.range 150).length ≤ 199 :=
  ⟨by decide, C4_batch_le_199 (List.range 150) (List.range 150) (by decide)⟩

/-! Line-number ordering of the per-file scan. -/

theorem lineRecords_line {file : String} {n : Nat} {s : String}
    {pats : List ScanRule} {r : MatchRecord}
    (h : r ∈ lineRecords file n s pats) : r.line = n := by
  simp only [lineRecords, List.mem_filterMap] at h
  obtain ⟨p, _, hp⟩ := h
  cases hps : p s with
  | none => rw [hps] at hp; simp at hp
  | some m =>
    rw [hps] at hp
    simp only [Option.map_some'] at hp
    cases hp
    rfl

theorem scan_attempt_acc (file : String) (pats : List ScanRule) :
    ∀ (evs : List FileEvent) (acc : List MatchRecord) (n : Nat),
      scan_attempt file pats evs acc n =
        (acc ++ (scan_attempt file pats evs [] n).1,
          (scan_attempt file pats evs [] n).2) := by
  intro evs
  induction evs with
  | nil => intro acc n; simp [scan_attempt]
  | cons ev rest ih =>
    intro acc n
    cases ev with
    | line s =>
      simp only [scan_attempt, List.nil_append]
      rw [ih (acc ++ lineRecords file (n + 1) s pats) (n + 1),
        ih (lineRecords file (n + 1) s pats) (n + 1)]
      simp [List.append_assoc]
    | err e => simp [scan_attempt]

theorem scan_attempt_lines_ok (file : String) (pats : List ScanRule) :
    ∀ (lines : List String) (n : Nat),
      (scan_attempt file pats (lines.map FileEvent.line) [] n).2 = none := by
  intro lines
  induction lines with
  | nil => intro n; rfl
  | cons l ls ih =>
    intro n
    simp only [List.map_cons, scan_attempt, List.nil_append]
    rw [scan_attempt_acc]
    exact ih (n + 1)

theorem scan_attempt_line_gt (file : String) (pats : List ScanRule) :
    ∀ (lines : List String) (n : Nat) (r : MatchRecord),
      r ∈ (scan_attempt file pats (lines.map FileEvent.line) [] n).1 → n < r.line := by
  intro lines
  induction lines with
  | nil => intro n r h; simp [scan_attempt] at h
  | cons l ls ih =>
    intro n r h
    simp only [List.map_cons, scan_attempt, List.nil_append] at h
    rw [scan_attempt_acc] at h
    rcases List.mem_append.mp h with h1 | h2
    · have := lineRecords_line h1; omega
    · have := ih (n + 1) r h2; omega

theorem pairwiseOfMemPair {α : Type} {r : α → α → Prop} :
    ∀ l : List α, (∀ a ∈ l, ∀ b ∈ l, r a b) → l.Pairwise r := by
  intro l
  induction l with
  | nil => intro _; exact List.Pairwise.nil
  | cons x xs ih =>
    intro h
    refine List.Pairwise.cons (fun b hb => h x (by simp) b (by simp [hb])) ?_
    exact ih (fun a ha b hb => h a (by simp [ha]) b (by simp [hb]))

theorem scanLines_pairwise (file : String) (pats : List ScanRule) :
    ∀ (lines : List String) (n : Nat),
      List.Pairwise (fun a b : MatchRecord => a.line ≤ b.line)
        ((scan_attempt file pats (lines.map FileEvent.line) [] n).1) := by
  intro lines
  induction lines with
  | nil => intro n; simp [scan_attempt]
  | cons l ls ih =>
    intro n
    simp only [List.map_cons, scan_attempt, List.nil_append]
    rw [scan_attempt_acc]
    refine List.pairwise_append.mpr ⟨?_, ih (n + 1), ?_⟩
    · refine pairwiseOfMemPair _ (fun a ha b hb => ?_)
      rw [lineRecords_line ha, lineRecords_line hb]
    · intro a ha b hb
      rw [lineRecords_line ha]
      have := scan_attempt_line_gt file pats ls (n + 1) b hb
      omega

/-- A rule matching line `AB` with captured text `A`. -/
def ruleHead : ScanRule := fun l => if l == "AB" then some "A" else none

/-- A second rule matching the same line `AB`, with captured text `B`. -/
def ruleTail : ScanRule := fun l => if l == "AB" then some "B" else none

/-- C8 counterexample: when two rules match the same line, the scanner
emits two records with the SAME line number (here both 1), so the record
list is not strictly increasing in line number. -/
theorem C8_same_line_cex :
    ¬ List.Pairwise (fun a b : MatchRecord => a.line < b.line)
        (scanLines "f" [ruleHead, ruleTail] ["AB"]) := by
  have h : scanLines "f" [ruleHead, ruleTail] ["AB"]
      = [⟨"A", "f", 1, "AB"⟩, ⟨"B", "f", 1, "AB"⟩] := rfl
  rw [h]
  intro hp
  have h1 := (List.pairwise_cons.mp hp).1 ⟨"B", "f", 1, "AB"⟩ (by simp)
  simp at h1

/-- C8 amended: within one file the records are emitted in NON-DECREASING
line-number order (strict increase fails only between records of one line,
one per matching rule); and an error-free read returns exactly the records
of the line-by-line pass. -/
theorem C8_nondecreasing_lines (file : String) (pats : List ScanRule)
    (lines : List String) :
    List.Pairwise (fun a b : MatchRecord => a.line ≤ b.line)
        (scanLines file pats lines) ∧
      find_secrets_in_file file pats (lines.map FileEvent.line) []
        = .ok (scanLines file pats lines) := by
  constructor
  · exact scanLines_pairwise file pats lines 0
  · have h2 := scan_attempt_lines_ok file pats lines 0
    unfold find_secrets_in_file scanLines
    rcases hsa : scan_attempt file pats (lines.map FileEvent.line) [] 0 with ⟨res, e⟩
    rw [hsa] at h2
    simp only at h2
    subst h2
    rfl

end SecretScanner
